import Mathlib

/-!
Verification development for the stock_analyzer package.

Shallow embedding conventions:
  * Python floats are modelled as rationals (ℚ).  Every comparison the
    classifier performs is between a count ratio with denominator at most 19
    and a threshold with denominator at most 10, so binary floating point and
    exact rational arithmetic decide every comparison identically.
  * Python dicts are modelled as ordered association lists
    (`List (String × _)`); Python dicts always have pairwise-distinct keys,
    which theorems assume through `Nodup` hypotheses where it matters.
  * `None` is modelled as `Option.none`; a dict value that may be `None`
    becomes an `Option ℚ` stored in the association list.
  * `float('inf')` / `-float('inf')` endpoints of the criteria ranges are
    modelled by the `Bound` type below.
-/

namespace StockAnalyzer

/-- A range endpoint: `-float('inf')`, a finite float, or `float('inf')`. -/
inductive Bound where
  | negInf : Bound
  | fin : ℚ → Bound
  | posInf : Bound
deriving DecidableEq, Repr

/-- The lower-endpoint test `min_val <= ratio_value` of analyzer.py line 241. -/
def Bound.loLe : Bound → ℚ → Bool
  | .negInf, _ => true
  | .fin q, v => q ≤ v
  | .posInf, _ => false

/-- The upper-endpoint test `ratio_value < max_val` of analyzer.py line 241. -/
def Bound.ltHi : ℚ → Bound → Bool
  | _, .posInf => true
  | v, .fin q => v < q
  | _, .negInf => false

/-- The test `min_val <= ratio_value < max_val` of analyzer.py line 241
(lower bound inclusive, upper bound exclusive). -/
def inRange (lo hi : Bound) (v : ℚ) : Bool :=
  lo.loLe v && Bound.ltHi v hi

/-- One ratio's criteria dict: rating name to (min, max) range, in the
insertion order of the Python source (great, good, no_buy). -/
abbrev RangeTable := List (String × Bound × Bound)

/-- VALUE_CRITERIA from criteria/value_criteria.py lines 10-20. -/
def VALUE_CRITERIA : List (String × RangeTable) :=
  [("pe_ratio", [("great", .fin 0, .fin 15), ("good", .fin 15, .fin 25), ("no_buy", .fin 25, .posInf)]),
   ("pb_ratio", [("great", .fin 0, .fin 1.5), ("good", .fin 1.5, .fin 3), ("no_buy", .fin 3, .posInf)]),
   ("ps_ratio", [("great", .fin 0, .fin 2), ("good", .fin 2, .fin 4), ("no_buy", .fin 4, .posInf)]),
   ("debt_to_equity", [("great", .fin 0, .fin 0.5), ("good", .fin 0.5, .fin 1.5), ("no_buy", .fin 1.5, .posInf)]),
   ("roe", [("great", .fin 0.15, .posInf), ("good", .fin 0.1, .fin 0.15), ("no_buy", .fin 0, .fin 0.1)]),
   ("current_ratio", [("great", .fin 1.5, .fin 3), ("good", .fin 1, .fin 1.5), ("no_buy", .fin 0, .fin 1)]),
   ("dividend_yield", [("great", .fin 0.03, .posInf), ("good", .fin 0.01, .fin 0.03), ("no_buy", .fin 0, .fin 0.01)]),
   ("profit_margin", [("great", .fin 0.15, .posInf), ("good", .fin 0.08, .fin 0.15), ("no_buy", .fin 0, .fin 0.08)]),
   ("peg_ratio", [("great", .fin 0, .fin 1), ("good", .fin 1, .fin 2), ("no_buy", .fin 2, .posInf)])]

/-- GROWTH_MOMENTUM_CRITERIA from criteria/growth_criteria.py lines 11-22. -/
def GROWTH_MOMENTUM_CRITERIA : List (String × RangeTable) :=
  [("revenue_growth", [("great", .fin 0.2, .posInf), ("good", .fin 0.1, .fin 0.2), ("no_buy", .fin 0, .fin 0.1)]),
   ("earnings_growth", [("great", .fin 0.2, .posInf), ("good", .fin 0.1, .fin 0.2), ("no_buy", .fin 0, .fin 0.1)]),
   ("price_performance_6m", [("great", .fin 0.15, .posInf), ("good", .fin 0.05, .fin 0.15), ("no_buy", .negInf, .fin 0.05)]),
   ("price_performance_1y", [("great", .fin 0.25, .posInf), ("good", .fin 0.1, .fin 0.25), ("no_buy", .negInf, .fin 0.1)]),
   ("eps_growth", [("great", .fin 0.15, .posInf), ("good", .fin 0.08, .fin 0.15), ("no_buy", .fin 0, .fin 0.08)]),
   ("gross_margin", [("great", .fin 0.4, .posInf), ("good", .fin 0.25, .fin 0.4), ("no_buy", .fin 0, .fin 0.25)]),
   ("operating_margin", [("great", .fin 0.2, .posInf), ("good", .fin 0.1, .fin 0.2), ("no_buy", .fin 0, .fin 0.1)]),
   ("relative_strength", [("great", .fin 0.1, .posInf), ("good", .fin 0, .fin 0.1), ("no_buy", .negInf, .fin 0)]),
   ("analyst_recommendation", [("great", .fin 1, .fin 2.5), ("good", .fin 2.5, .fin 3.5), ("no_buy", .fin 3.5, .fin 5)]),
   ("pe_growth", [("great", .fin 0.8, .posInf), ("good", .fin 0.5, .fin 0.8), ("no_buy", .fin 0, .fin 0.5)])]

/-- Criteria selection of analyzer.py lines 226-230: 'value' selects
VALUE_CRITERIA, any other analysis type selects GROWTH_MOMENTUM_CRITERIA. -/
def criteriaFor (analysis_type : String) : List (String × RangeTable) :=
  if analysis_type == "value" then VALUE_CRITERIA else GROWTH_MOMENTUM_CRITERIA

/-- The inner `for rating, (min_val, max_val) in ratio_criteria.items()` loop of
analyzer.py lines 240-244: first rating whose range holds the value, then break. -/
def findRating : RangeTable → ℚ → Option String
  | [], _ => none
  | (rating, lo, hi) :: rest, v =>
    if inRange lo hi v then some rating else findRating rest v

/-- One iteration of the loop of analyzer.py lines 235-244: the rating the
ratio receives, or `none` when the value is None, the ratio has no criteria
entry, or its value lies in no rating's range. -/
def rateEntry (criteria : List (String × RangeTable)) (ratio_name : String)
    (ratio_value : Option ℚ) : Option String :=
  match ratio_value with
  | none => none
  | some v =>
    match criteria.lookup ratio_name with
    | none => none
    | some ratio_criteria => findRating ratio_criteria v

/-- The rating_details dict built by the loop of analyzer.py lines 235-244,
in iteration order.  Python dicts have distinct keys, so consing in iteration
order models the dict. -/
def ratingDetails (criteria : List (String × RangeTable)) :
    List (String × Option ℚ) → List (String × String)
  | [] => []
  | (ratio_name, ratio_value) :: rest =>
    match rateEntry criteria ratio_name ratio_value with
    | none => ratingDetails criteria rest
    | some rating => (ratio_name, rating) :: ratingDetails criteria rest

/-- The rating_counts dict of analyzer.py line 233. -/
structure RatingCounts where
  great : Nat
  good : Nat
  no_buy : Nat
deriving DecidableEq, Repr

/-- The increment `rating_counts[rating] += 1` of analyzer.py line 242.
Both criteria tables only ever produce the three listed rating names
(Python would raise KeyError otherwise). -/
def bumpCount (c : RatingCounts) (rating : String) : RatingCounts :=
  if rating == "great" then { c with great := c.great + 1 }
  else if rating == "good" then { c with good := c.good + 1 }
  else if rating == "no_buy" then { c with no_buy := c.no_buy + 1 }
  else c

/-- Accumulation of rating_counts over the loop: one increment per entry that
was also recorded in rating_details (additions commute, so accumulating over
the recursion equals the source's in-loop increments). -/
def countsOf : List (String × String) → RatingCounts
  | [] => ⟨0, 0, 0⟩
  | (_, rating) :: rest => bumpCount (countsOf rest) rating

/-- `total_rated = sum(rating_counts.values())` of analyzer.py line 247. -/
def RatingCounts.total (c : RatingCounts) : Nat :=
  c.great + c.good + c.no_buy

/-- The classification tail of classify_stock (analyzer.py lines 246-272):
after the loop only rating_counts and analysis_type determine the label. -/
def classificationLabel (counts : RatingCounts) (analysis_type : String) : String :=
  let total_rated := counts.total
  if total_rated = 0 then "Insufficient data for classification"
  else
    let great_percent : ℚ := (counts.great : ℚ) / (total_rated : ℚ)
    let good_percent : ℚ := (counts.good : ℚ) / (total_rated : ℚ)
    let no_buy_percent : ℚ := (counts.no_buy : ℚ) / (total_rated : ℚ)
    if analysis_type == "value" then
      if great_percent ≥ 0.5 ∧ no_buy_percent ≤ 0.2 then "GREAT BUY"
      else if great_percent + good_percent ≥ 0.6 ∧ no_buy_percent ≤ 0.3 then "GOOD BUY"
      else "NO BUY"
    else
      if great_percent ≥ 0.4 ∧ no_buy_percent ≤ 0.3 then "GREAT GROWTH OPPORTUNITY"
      else if great_percent + good_percent ≥ 0.5 ∧ no_buy_percent ≤ 0.4 then "GOOD GROWTH OPPORTUNITY"
      else "POOR GROWTH OPPORTUNITY"

/-- StockAnalyzer.classify_stock of analyzer.py lines 211-272.  The argument
is `none` when Python passes `None`; `if not ratios` is falsy for both `None`
and the empty dict.  When total_rated = 0 the source returns the insufficiency
label with the (necessarily empty) rating_details, which classificationLabel
reproduces. -/
def classify_stock (ratios : Option (List (String × Option ℚ)))
    (analysis_type : String) : String × List (String × String) :=
  match ratios with
  | none => ("Insufficient data for classification", [])
  | some rs =>
    if rs.isEmpty then ("Insufficient data for classification", [])
    else
      let rating_details := ratingDetails (criteriaFor analysis_type) rs
      (classificationLabel (countsOf rating_details) analysis_type, rating_details)

/-- The fields of the provider's `info` dict that calculate_ratios and
generate_report read (models/stock_data.py's `info: Dict[str, Any]`).  A
missing key and a key stored with value None both become `none`, matching how
`info.get(key, None)` erases the difference. -/
structure Info where
  trailingPE : Option ℚ
  forwardPE : Option ℚ
  priceToBook : Option ℚ
  priceToSalesTrailing12Months : Option ℚ
  debtToEquity : Option ℚ
  returnOnEquity : Option ℚ
  currentRatio : Option ℚ
  dividendYield : Option ℚ
  profitMargins : Option ℚ
  pegRatio : Option ℚ
  revenueGrowth : Option ℚ
  earningsGrowth : Option ℚ
  earningsQuarterlyGrowth : Option ℚ
  grossMargins : Option ℚ
  operatingMargins : Option ℚ
  recommendationMean : Option ℚ
  longName : Option String
  currency : Option String
deriving Repr

/-- The most recent fiscal-year column of the balance sheet
(`balance_sheet.iloc[:, 0]`), restricted to the two rows calculate_ratios
reads; `none` models a row absent from the column index. -/
structure BalanceCol where
  totalCurrentAssets : Option ℚ
  totalCurrentLiabilities : Option ℚ
deriving Repr

/-- StockData of models/stock_data.py.  `info = none` models a stock whose
info dict is missing or empty (falsy).  DataFrames are reduced to what the
analyzer reads: the Close price column oldest-to-newest for historical and
market data (`none` = the attribute is None, `some []` = an empty frame), and
for the statements an outer `none` = None, inner `none` = empty frame (so no
`iloc[:, 0]` column).  The unused cash_flow attribute is omitted. -/
structure StockData where
  ticker : String
  info : Option Info
  income_stmt : Option (Option Unit)
  balance_sheet : Option (Option BalanceCol)
  historical_data : Option (List ℚ)
  market_data : Option (List ℚ)
  current_price : Option ℚ
deriving Repr

/-- Python dict assignment `d[k] = v`: update in place when the key exists,
otherwise append at the end (dicts preserve insertion order). -/
def dictSet (d : List (String × Option ℚ)) (k : String) (v : Option ℚ) :
    List (String × Option ℚ) :=
  match d with
  | [] => [(k, v)]
  | (k0, v0) :: rest => if k0 == k then (k, v) :: rest else (k0, v0) :: dictSet rest k v

/-- The unconditional first block of calculate_ratios (analyzer.py lines
88-97): the nine base ratio assignments. -/
def baseRatios (info : Info) : List (String × Option ℚ) :=
  let ratios : List (String × Option ℚ) := []
  let ratios := dictSet ratios "pe_ratio" (info.trailingPE.orElse fun _ => info.forwardPE)
  let ratios := dictSet ratios "pb_ratio" info.priceToBook
  let ratios := dictSet ratios "ps_ratio" info.priceToSalesTrailing12Months
  let ratios := dictSet ratios "debt_to_equity"
    (match info.debtToEquity with
     | some d => if d ≠ 0 then some (d / 100) else none
     | none => none)
  let ratios := dictSet ratios "roe" info.returnOnEquity
  let ratios := dictSet ratios "current_ratio" info.currentRatio
  let ratios := dictSet ratios "dividend_yield" (some (info.dividendYield.getD 0))
  let ratios := dictSet ratios "profit_margin" info.profitMargins
  let ratios := dictSet ratios "peg_ratio" info.pegRatio
  ratios

/-- The `# Calculate price performance metrics` block of analyzer.py lines
101-127 (guarded by `if not historical_data.empty:`): 6-month and 1-year
price performance and relative strength against the market. -/
def ppRatios (sd : StockData) (hist : List ℚ)
    (ratios0 : List (String × Option ℚ)) : List (String × Option ℚ) :=
  let ratios := ratios0
  if !hist.isEmpty then
    let six_month_ago_idx := hist.length - min hist.length 126
    let ratios :=
      if six_month_ago_idx < hist.length then
        let start_price := hist.getD six_month_ago_idx 0
        let end_price := hist.getLastD 0
        dictSet ratios "price_performance_6m"
          (if start_price ≠ 0 then some ((end_price - start_price) / start_price) else none)
      else ratios
    let start_price : Option ℚ := if 0 < hist.length then some hist.headI else none
    let end_price : Option ℚ := if 0 < hist.length then some (hist.getLastD 0) else none
    let ratios := dictSet ratios "price_performance_1y"
      (match start_price, end_price with
       | some s, some e => if s ≠ 0 then some ((e - s) / s) else none
       | _, _ => none)
    match sd.market_data with
    | none => ratios
    | some mkt =>
      if !mkt.isEmpty then
        let stock_return := (ratios.lookup "price_performance_1y").join
        let market_start : Option ℚ := if 0 < mkt.length then some mkt.headI else none
        let market_end : Option ℚ := if 0 < mkt.length then some (mkt.getLastD 0) else none
        let market_return : Option ℚ :=
          match market_start, market_end with
          | some s, some e => if s ≠ 0 then some ((e - s) / s) else none
          | _, _ => none
        match stock_return, market_return with
        | some sr, some mr => dictSet ratios "relative_strength" (some (sr - mr))
        | _, _ => ratios
      else ratios
  else ratios

/-- The six `# Calculate other growth metrics` assignments of analyzer.py
lines 129-134. -/
def growthInfoRatios (info : Info) (ratios0 : List (String × Option ℚ)) :
    List (String × Option ℚ) :=
  let ratios := dictSet ratios0 "revenue_growth" info.revenueGrowth
  let ratios := dictSet ratios "earnings_growth" info.earningsGrowth
  let ratios := dictSet ratios "eps_growth" info.earningsQuarterlyGrowth
  let ratios := dictSet ratios "gross_margin" info.grossMargins
  let ratios := dictSet ratios "operating_margin" info.operatingMargins
  let ratios := dictSet ratios "analyst_recommendation" info.recommendationMean
  ratios

/-- The `# Calculate PE to Growth score` block of analyzer.py lines 136-141. -/
def peGrowthRatios (ratios0 : List (String × Option ℚ)) :
    List (String × Option ℚ) :=
  let ratios := ratios0
  match (ratios.lookup "pe_ratio").join, (ratios.lookup "earnings_growth").join with
  | some pe, some eg =>
    if eg > 0 then
      let pe_growth_factor : ℚ := if pe > 0 then eg / pe else 0
      dictSet ratios "pe_growth" (some (min 1.5 (pe_growth_factor * 10)))
    else ratios
  | _, _ => ratios

/-- The `if analysis_type == 'growth_momentum' and historical_data is not
None:` block of calculate_ratios (analyzer.py lines 99-143): the price
performance block followed by the other growth metrics and the PE-to-growth
score. -/
def growthRatios (sd : StockData) (info : Info) (analysis_type : String)
    (ratios0 : List (String × Option ℚ)) : List (String × Option ℚ) :=
  if analysis_type == "growth_momentum" then
    match sd.historical_data with
    | none => ratios0
    | some hist => peGrowthRatios (growthInfoRatios info (ppRatios sd hist ratios0))
  else ratios0

/-- The `if income_stmt is not None and balance_sheet is not None:` block of
calculate_ratios (analyzer.py lines 145-157): recompute a missing
current_ratio from the latest balance-sheet column. -/
def statementRatios (sd : StockData) (ratios0 : List (String × Option ℚ)) :
    List (String × Option ℚ) :=
  let ratios := ratios0
  match sd.income_stmt, sd.balance_sheet with
        | some latest_income?, some latest_balance? =>
          match latest_income?, latest_balance? with
          | some _, some latest_year_balance =>
            if (ratios.lookup "current_ratio").join = none
                && latest_year_balance.totalCurrentAssets.isSome
                && latest_year_balance.totalCurrentLiabilities.isSome then
              let curr_assets := latest_year_balance.totalCurrentAssets.getD 0
              let curr_liab := latest_year_balance.totalCurrentLiabilities.getD 0
              dictSet ratios "current_ratio"
                (if curr_liab ≠ 0 then some (curr_assets / curr_liab) else none)
            else ratios
          | _, _ => ratios
        | _, _ => ratios

/-- StockAnalyzer.calculate_ratios of analyzer.py lines 67-159: `none` when
stock_data is None or its info dict is falsy, otherwise the three sequential
blocks above applied in source order.  Accesses guarded by the source's index
checks use the total getters `headI`/`getD`/`getLastD`, whose defaults are
unreachable under those guards. -/
def calculate_ratios (stock_data : Option StockData) (analysis_type : String) :
    Option (List (String × Option ℚ)) :=
  match stock_data with
  | none => none
  | some sd =>
    match sd.info with
    | none => none
    | some info =>
      some (statementRatios sd (growthRatios sd info analysis_type (baseRatios info)))

/-- Round a rational to the nearest integer, ties to even, approximating how
Python's fixed-point float formatting rounds. -/
def roundHalfEven (q : ℚ) : ℤ :=
  let f := ⌊q⌋
  if q - f < 1/2 then f
  else if q - f > 1/2 then f + 1
  else if f % 2 = 0 then f else f + 1

/-- Python's `{:.2f}` fixed-point rendering of a (rational-modelled) float. -/
def fmt2 (q : ℚ) : String :=
  let n := roundHalfEven (q * 100)
  let m := n.natAbs
  let fp := m % 100
  (if n < 0 then "-" else "") ++ toString (m / 100) ++ "." ++
    (if fp < 10 then "0" ++ toString fp else toString fp)

/-- Python's `str()` of a criteria-table numeral: integers print bare, and
every non-integral numeral in the tables has exactly one decimal digit. -/
def pyNumStr (q : ℚ) : String :=
  if q.den = 1 then toString q.num
  else
    let t := ⌊q * 10⌋
    toString (t / 10) ++ "." ++ toString (t % 10)

/-- `{:.2f}` applied to a range endpoint (Python renders infinite floats as
inf with a sign). -/
def fmt2Bound : Bound → String
  | .fin q => fmt2 q
  | .posInf => "inf"
  | .negInf => "-inf"

/-- The `criteria['great'][1] if criteria['great'][1] != float('inf') else
'inf'` rendering of an upper endpoint. -/
def upperStr : Bound → String
  | .fin q => pyNumStr q
  | .posInf => "inf"
  | .negInf => "-inf"

/-- One entry of a descriptions dict: the fields get_ratio_explanation reads
(the unread 'description' prose field is omitted; an absent ideal key is
`none`, read back through `.get(ideal_key, '')`). -/
structure RatioDescription where
  name : String
  interpretation : String
  value_stock_ideal : Option String
  growth_stock_ideal : Option String
deriving Repr

/-- VALUE_DESCRIPTIONS from criteria/value_criteria.py (name, interpretation
and value_stock_ideal fields). -/
def VALUE_DESCRIPTIONS : List (String × RatioDescription) :=
  [("pe_ratio", ⟨"Price-to-Earnings Ratio",
    "Lower is better for value stocks. A low P/E may indicate an undervalued stock, while a high P/E might suggest overvaluation or high growth expectations.",
    some "Below 15 is excellent for value investing, suggesting potential undervaluation.", none⟩),
   ("pb_ratio", ⟨"Price-to-Book Ratio",
    "Lower is better for value stocks. A P/B ratio under 1.5 may indicate an undervalued stock relative to its assets.",
    some "Below 1.5 is considered excellent for value investing.", none⟩),
   ("ps_ratio", ⟨"Price-to-Sales Ratio",
    "Lower is better. A low P/S ratio may indicate an undervalued stock based on its sales performance.",
    some "Below 2 is excellent for value investing, particularly in established industries.", none⟩),
   ("debt_to_equity", ⟨"Debt-to-Equity Ratio",
    "Lower is generally better. High leverage can increase financial risk and volatility.",
    some "Below 0.5 is excellent, indicating conservative financial management.", none⟩),
   ("roe", ⟨"Return on Equity",
    "Higher is better. Strong ROE indicates efficient use of shareholders\x27 capital.",
    some "Above 15% shows excellent profitability and efficiency.", none⟩),
   ("current_ratio", ⟨"Current Ratio",
    "Higher is generally better. A ratio above 1.5 suggests good short-term financial health.",
    some "Between 1.5 and 3.0 is ideal, showing good liquidity without excessive idle capital.", none⟩),
   ("dividend_yield", ⟨"Dividend Yield",
    "Higher is generally better for income investors. Shows how much cash flow you\x27re receiving per dollar invested.",
    some "Above 3% is excellent for value and income investing.", none⟩),
   ("profit_margin", ⟨"Profit Margin",
    "Higher is better. Shows how efficiently a company converts sales into profits.",
    some "Above 15% indicates strong profitability and competitive advantages.", none⟩),
   ("peg_ratio", ⟨"Price/Earnings to Growth Ratio",
    "Lower is better. Takes into account growth expectations to give context to the P/E ratio.",
    some "Below 1.0 suggests the stock may be undervalued relative to its growth rate.", none⟩)]

/-- GROWTH_MOMENTUM_DESCRIPTIONS from criteria/growth_criteria.py (name,
interpretation and growth_stock_ideal fields). -/
def GROWTH_MOMENTUM_DESCRIPTIONS : List (String × RatioDescription) :=
  [("revenue_growth", ⟨"Revenue Growth Rate",
    "Higher is better for growth stocks. Strong revenue growth indicates expanding business and market share.",
    none, some "Above 20% annually is excellent, showing rapid expansion."⟩),
   ("earnings_growth", ⟨"Earnings Growth Rate",
    "Higher is better. Accelerating earnings growth is particularly positive.",
    none, some "Above 20% annually shows strong profit expansion."⟩),
   ("price_performance_6m", ⟨"6-Month Price Performance",
    "Higher is better for momentum stocks. Positive price momentum often continues in the short term.",
    none, some "Above 15% in 6 months indicates strong upward momentum."⟩),
   ("price_performance_1y", ⟨"1-Year Price Performance",
    "Higher is better for momentum strategies. Extended price strength often signals market confidence.",
    none, some "Above 25% annually shows sustained price strength."⟩),
   ("eps_growth", ⟨"EPS Growth Rate",
    "Higher is better. Consistent EPS growth is a key factor for growth investors.",
    none, some "Above 15% annually indicates strong per-share profit growth."⟩),
   ("gross_margin", ⟨"Gross Margin",
    "Higher is better. High margins often indicate competitive advantages and pricing power.",
    none, some "Above 40% suggests strong product margins and pricing power."⟩),
   ("operating_margin", ⟨"Operating Margin",
    "Higher is better. Improving operating margins suggest operational efficiency.",
    none, some "Above 20% indicates efficient operations and scalable business model."⟩),
   ("relative_strength", ⟨"Relative Strength",
    "Higher is better for momentum stocks. Outperformance vs. the market is a positive signal.",
    none, some "Outperforming the market by 10% or more is excellent."⟩),
   ("analyst_recommendation", ⟨"Analyst Recommendation",
    "Lower is better. Strong buy ratings may indicate positive future prospects.",
    none, some "Below 2.5 (between Buy and Strong Buy) suggests analyst confidence."⟩),
   ("pe_growth", ⟨"P/E to Growth Score",
    "Higher is better for growth stocks. This metric rewards high growth even with elevated P/E ratios.",
    none, some "Above 0.8 suggests good balance of growth and valuation."⟩)]

/-- StockAnalyzer.get_ratio_explanation of analyzer.py lines 161-209.  Every
descriptions key is also a VALUE_CRITERIA key, so the `getD` default table in
the value branch is unreachable (Python indexes the dict directly). -/
def get_ratio_explanation (ratio_name : String) (ratio_value : Option ℚ)
    (rating : String) (analysis_type : String) : String :=
  let value_branch := analysis_type == "value"
  let descriptions := if value_branch then VALUE_DESCRIPTIONS else GROWTH_MOMENTUM_DESCRIPTIONS
  let ideal_of : RatioDescription → String := fun d =>
    if value_branch then d.value_stock_ideal.getD "" else d.growth_stock_ideal.getD ""
  match descriptions.lookup ratio_name, ratio_value with
  | some ratio_info, some v =>
    let body : RangeTable → String := fun criteria =>
      let great_range := (criteria.lookup "great").getD (.fin 0, .fin 0)
      let explanation := ratio_info.name ++ " (" ++ fmt2 v ++ "): "
      let first_sentence := (ratio_info.interpretation.splitOn ".").headD ""
      let perspective := analysis_type.replace "_" "/"
      if rating == "great" then
        explanation ++ "EXCELLENT. " ++ first_sentence ++ ". " ++
          "For " ++ perspective ++ " stocks, " ++ ideal_of ratio_info
      else if rating == "good" then
        explanation ++ "GOOD. " ++ first_sentence ++ ". " ++
          "While not in the ideal range (" ++ fmt2Bound great_range.1 ++ "-" ++
          upperStr great_range.2 ++ "), it\x27s still acceptable for " ++
          perspective ++ " investing."
      else
        explanation ++ "CONCERNING. " ++ first_sentence ++ ". " ++
          "For " ++ perspective ++ " stocks, this is outside the preferred range. " ++
          "Ideal would be " ++ fmt2Bound great_range.1 ++ "-" ++ upperStr great_range.2 ++ "."
    if value_branch then
      body ((VALUE_CRITERIA.lookup ratio_name).getD [])
    else
      match GROWTH_MOMENTUM_CRITERIA.lookup ratio_name with
      | some criteria => body criteria
      | none => "This metric is not applicable for growth/momentum analysis."
  | _, _ => "Insufficient data available."

/-- StockReport of models/report.py lines 9-37 (the fields; the computed
properties follow as functions). -/
structure StockReport where
  ticker : String
  company_name : String
  current_price : Option ℚ
  currency : String
  timestamp : String
  classification : String
  ratios : List (String × Option ℚ)
  rating_details : List (String × String)
  ratio_explanations : List (String × String)
  analysis_type : String
deriving Repr

/-- StockReport.great_count of models/report.py lines 39-42. -/
def StockReport.great_count (r : StockReport) : Nat :=
  (r.rating_details.map Prod.snd).count "great"

/-- StockReport.good_count of models/report.py lines 44-47. -/
def StockReport.good_count (r : StockReport) : Nat :=
  (r.rating_details.map Prod.snd).count "good"

/-- StockReport.no_buy_count of models/report.py lines 49-52. -/
def StockReport.no_buy_count (r : StockReport) : Nat :=
  (r.rating_details.map Prod.snd).count "no_buy"

/-- StockReport.total_rated of models/report.py lines 54-57. -/
def StockReport.total_rated (r : StockReport) : Nat :=
  r.rating_details.length

/-- StockReport.strength_percentage of models/report.py lines 57-62. -/
def StockReport.strength_percentage (r : StockReport) : ℚ :=
  if r.total_rated = 0 then 0.0
  else ((r.great_count : ℚ) + (r.good_count : ℚ)) / (r.total_rated : ℚ) * 100

/-- StockAnalyzer.generate_report of analyzer.py lines 274-328.  The result
of the external fetch_stock_data call (excluded collaborator) enters as the
`fetched` argument, and `now` stands for the datetime.now() timestamp string.
`if not stock_data` and `if not ratios` are the source's falsiness checks. -/
def generate_report (fetched : Option StockData) (ticker : String)
    (analysis_type : String) (now : String) : Except String StockReport :=
  match fetched with
  | none => .error ("Could not retrieve data for " ++ ticker)
  | some stock_data =>
    match calculate_ratios (some stock_data) analysis_type with
    | none => .error ("Could not calculate ratios for " ++ ticker)
    | some ratios =>
      if ratios.isEmpty then .error ("Could not calculate ratios for " ++ ticker)
      else
        let classified := classify_stock (some ratios) analysis_type
        let ratio_explanations := classified.2.filterMap fun p =>
          match ratios.lookup p.1 with
          | some (some v) => some (p.1, get_ratio_explanation p.1 (some v) p.2 analysis_type)
          | _ => none
        .ok { ticker := ticker
              company_name := (match stock_data.info with
                | some i => i.longName.getD ticker
                | none => ticker)
              current_price := stock_data.current_price
              currency := (match stock_data.info with
                | some i => i.currency.getD "USD"
                | none => "USD")
              timestamp := now
              classification := classified.1
              ratios := ratios
              rating_details := classified.2
              ratio_explanations := ratio_explanations
              analysis_type := analysis_type }

/-- The rating_details produced by classify_stock, as a function of its
argument (empty for a falsy ratios argument). -/
def detailsOf (ratios : Option (List (String × Option ℚ))) (analysis_type : String) :
    List (String × String) :=
  match ratios with
  | none => []
  | some rs => ratingDetails (criteriaFor analysis_type) rs

/-- The rating_counts accumulated by classify_stock. -/
def ratingCountsOf (ratios : Option (List (String × Option ℚ)))
    (analysis_type : String) : RatingCounts :=
  countsOf (detailsOf ratios analysis_type)

/-- Semantic disjointness of two rating ranges: no value lies in both. -/
def disjointRanges (e1 e2 : String × Bound × Bound) : Prop :=
  ∀ v : ℚ, ¬(inRange e1.2.1 e1.2.2 v = true ∧ inRange e2.2.1 e2.2.2 v = true)

/-- Endpoint test that the first range ends no later than the second begins. -/
def hiLeLo : Bound → Bound → Bool
  | .negInf, _ => true
  | _, .posInf => true
  | .fin a, .fin b => decide (a ≤ b)
  | .posInf, _ => false
  | .fin _, .negInf => false

/-- Executable disjointness check on the endpoints of two ranges. -/
def rangesApartB (e1 e2 : String × Bound × Bound) : Bool :=
  hiLeLo e1.2.2 e2.2.1 || hiLeLo e2.2.2 e1.2.1

/-- Executable pairwise disjointness over a whole range table. -/
def pairwiseApartB : RangeTable → Bool
  | [] => true
  | e :: rest => rest.all (fun e2 => rangesApartB e e2) && pairwiseApartB rest

/-- Proof device: `g` extends the dict `d` by at most `n` assignments, all of
whose keys lie in `ks`. -/
def DictExt (d g : List (String × Option ℚ)) (ks : List String) (n : Nat) : Prop :=
  d.length ≤ g.length ∧ g.length ≤ d.length + n
  ∧ ((d.map Prod.fst).Nodup → (g.map Prod.fst).Nodup)
  ∧ (∀ k ∈ d.map Prod.fst, k ∈ g.map Prod.fst)
  ∧ (∀ k : String, k ∉ ks → g.lookup k = d.lookup k)

/-- The ratio names only the growth/momentum block ever assigns. -/
def growthOnlyKeys : List String :=
  ["price_performance_6m", "price_performance_1y", "relative_strength",
   "revenue_growth", "earnings_growth", "eps_growth", "gross_margin",
   "operating_margin", "analyst_recommendation", "pe_growth"]

/-- The restriction of a ratios dict to the ratio names of the analysis
type's criteria table. -/
def restrictTo (analysis_type : String) (ratios : List (String × Option ℚ)) :
    List (String × Option ℚ) :=
  ratios.filter fun p => ((criteriaFor analysis_type).lookup p.1).isSome

/-- An info dict carrying none of the fields the analyzer reads (only
dividendYield's 0 default fires). -/
def sampleInfo : Info :=
  ⟨none, none, none, none, none, none, none, none, none, none, none, none,
   none, none, none, none, none, none⟩

/-- A stock whose provider returned a non-empty info dict with none of the
analyzed fields and no statements or price history. -/
def sampleStock : StockData :=
  ⟨"TEST", some sampleInfo, none, none, none, none, none⟩

/-- The ratios dict calculate_ratios produces for sampleStock under value
analysis. -/
def sampleRatios : List (String × Option ℚ) :=
  [("pe_ratio", none), ("pb_ratio", none), ("ps_ratio", none),
   ("debt_to_equity", none), ("roe", none), ("current_ratio", none),
   ("dividend_yield", some 0), ("profit_margin", none), ("peg_ratio", none)]

/-- sampleInfo with a reported zero debtToEquity. -/
def zeroDebtInfo : Info := { sampleInfo with debtToEquity := some 0 }

/-- A stock whose provider reports debtToEquity = 0. -/
def zeroDebtStock : StockData :=
  ⟨"ZERO", some zeroDebtInfo, none, none, none, none, none⟩

/-- A fully populated info dict. -/
def cexInfo : Info :=
  ⟨some 10, some 11, some 1, some 1, some 50, some 0.2, some 2, some 0.04,
   some 0.2, some 0.9, some 0.3, some 0.3, some 0.2, some 0.5, some 0.25,
   some 2, some "Acme Corp", some "USD"⟩

/-- A stock with full info, statements, and two days of stock and market
price history. -/
def cexStock : StockData :=
  ⟨"ACME", some cexInfo, some (some ()), some (some ⟨some 200, some 100⟩),
   some [100, 150], some [100, 110], some 150⟩

/-- A report with no rated metrics. -/
def emptyReport : StockReport :=
  ⟨"T", "T", none, "USD", "ts", "NO BUY", [], [], [], "value"⟩

/-- A report with one rated metric. -/
def oneRatedReport : StockReport :=
  ⟨"T", "T", none, "USD", "ts", "GREAT BUY", [("pe_ratio", some 10)],
   [("pe_ratio", "great")], [], "value"⟩

/-- The report generate_report produces for sampleStock under value
analysis. -/
def sampleReport : StockReport :=
  (generate_report (some sampleStock) "TEST" "value" "ts").toOption.getD
    ⟨"", "", none, "", "", "", [], [], [], ""⟩

theorem lookup_mem {α : Type} {l : List (String × α)} {k : String} {v : α}
    (h : l.lookup k = some v) : (k, v) ∈ l := by
  induction l with
  | nil => simp [List.lookup] at h
  | cons p rest ih =>
    obtain ⟨k0, v0⟩ := p
    rw [List.lookup] at h
    by_cases hk : k = k0
    · subst hk
      simp only [beq_self_eq_true] at h
      injection h with h
      exact h ▸ List.mem_cons_self _ _
    · rw [beq_false_of_ne hk] at h
      exact List.mem_cons_of_mem _ (ih h)

theorem hiLeLo_apart {hi lo : Bound} (h : hiLeLo hi lo = true) (v : ℚ) :
    ¬(Bound.ltHi v hi = true ∧ Bound.loLe lo v = true) := by
  rintro ⟨h1, h2⟩
  cases hi with
  | negInf => simp [Bound.ltHi] at h1
  | posInf => cases lo with
    | negInf => simp [hiLeLo] at h
    | fin b => simp [hiLeLo] at h
    | posInf => simp [Bound.loLe] at h2
  | fin a => cases lo with
    | negInf => simp [hiLeLo] at h
    | posInf => simp [Bound.loLe] at h2
    | fin b =>
      simp only [hiLeLo, decide_eq_true_eq] at h
      simp only [Bound.ltHi, decide_eq_true_eq] at h1
      simp only [Bound.loLe, decide_eq_true_eq] at h2
      exact absurd (lt_of_lt_of_le h1 (le_trans h h2)) (lt_irrefl v)

theorem rangesApartB_disjoint {e1 e2 : String × Bound × Bound}
    (h : rangesApartB e1 e2 = true) : disjointRanges e1 e2 := by
  intro v hv
  obtain ⟨h1, h2⟩ := hv
  simp only [inRange, Bool.and_eq_true] at h1 h2
  rcases Bool.or_eq_true_iff.mp h with hcase | hcase
  · exact hiLeLo_apart hcase v ⟨h1.2, h2.1⟩
  · exact hiLeLo_apart hcase v ⟨h2.2, h1.1⟩

theorem pairwiseApartB_pairwise {rc : RangeTable} (h : pairwiseApartB rc = true) :
    rc.Pairwise disjointRanges := by
  induction rc with
  | nil => exact List.Pairwise.nil
  | cons e rest ih =>
    rw [pairwiseApartB, Bool.and_eq_true, List.all_eq_true] at h
    exact List.Pairwise.cons (fun e2 he2 => rangesApartB_disjoint (h.1 e2 he2)) (ih h.2)

theorem disjointRanges_symm : Symmetric disjointRanges :=
  fun _ _ h v hv => h v ⟨hv.2, hv.1⟩

theorem tables_pairwise {analysis_type n : String} {rc : RangeTable}
    (h : (criteriaFor analysis_type).lookup n = some rc) :
    rc.Pairwise disjointRanges := by
  have hv : ∀ p ∈ VALUE_CRITERIA, pairwiseApartB p.2 = true := by
    with_unfolding_all decide
  have hg : ∀ p ∈ GROWTH_MOMENTUM_CRITERIA, pairwiseApartB p.2 = true := by
    with_unfolding_all decide
  have hmem := lookup_mem h
  apply pairwiseApartB_pairwise
  unfold criteriaFor at hmem
  by_cases ht : (analysis_type == "value") = true
  · rw [if_pos ht] at hmem
    exact hv (n, rc) hmem
  · rw [if_neg (by simpa using ht)] at hmem
    exact hg (n, rc) hmem

theorem findRating_mem {rc : RangeTable} {v : ℚ} {r : String}
    (h : findRating rc v = some r) :
    ∃ lo hi, (r, lo, hi) ∈ rc ∧ inRange lo hi v = true := by
  induction rc with
  | nil => simp [findRating] at h
  | cons e rest ih =>
    obtain ⟨er, elo, ehi⟩ := e
    rw [findRating] at h
    by_cases hr : inRange elo ehi v = true
    · rw [if_pos hr] at h
      obtain rfl : er = r := by injection h
      exact ⟨elo, ehi, List.mem_cons_self _ _, hr⟩
    · rw [if_neg hr] at h
      obtain ⟨lo, hi, hm, hv⟩ := ih h
      exact ⟨lo, hi, List.mem_cons_of_mem _ hm, hv⟩

theorem findRating_eq_none_iff {rc : RangeTable} {v : ℚ} :
    findRating rc v = none ↔ ∀ e ∈ rc, inRange e.2.1 e.2.2 v = false := by
  induction rc with
  | nil => simp [findRating]
  | cons e rest ih =>
    obtain ⟨er, elo, ehi⟩ := e
    rw [findRating]
    by_cases hr : inRange elo ehi v = true
    · rw [if_pos hr]
      simp only [List.mem_cons]
      constructor
      · intro h; cases h
      · intro h
        have := h (er, elo, ehi) (Or.inl rfl)
        rw [hr] at this
        cases this
    · rw [if_neg hr, ih]
      simp only [List.mem_cons]
      constructor
      · rintro h e (rfl | he)
        · exact Bool.not_eq_true _ ▸ Bool.of_not_eq_true hr
        · exact h e he
      · intro h e he
        exact h e (Or.inr he)

theorem findRating_of_mem {rc : RangeTable} (hp : rc.Pairwise disjointRanges)
    {r : String} {lo hi : Bound} {v : ℚ} (hm : (r, lo, hi) ∈ rc)
    (hv : inRange lo hi v = true) : findRating rc v = some r := by
  induction rc with
  | nil => cases hm
  | cons e rest ih =>
    obtain ⟨er, elo, ehi⟩ := e
    rw [findRating]
    rcases List.mem_cons.mp hm with heq | hrest
    · injection heq with h1 h23
      injection h23 with h2 h3
      subst h1; subst h2; subst h3
      rw [if_pos hv]
    · have hdisj := (List.pairwise_cons.mp hp).1 _ hrest
      have hnot : inRange elo ehi v ≠ true := fun hcontra =>
        hdisj v ⟨hcontra, hv⟩
      rw [if_neg hnot]
      exact ih (List.pairwise_cons.mp hp).2 hrest

theorem findRating_perm {rc rc' : RangeTable} (hp : rc.Pairwise disjointRanges)
    (hperm : rc.Perm rc') (v : ℚ) : findRating rc' v = findRating rc v := by
  cases h : findRating rc v with
  | some r =>
    obtain ⟨lo, hi, hm, hv⟩ := findRating_mem h
    exact findRating_of_mem
      ((hperm.pairwise_iff fun h => disjointRanges_symm h).mp hp)
      (hperm.mem_iff.mp hm) hv
  | none =>
    rw [findRating_eq_none_iff] at h ⊢
    exact fun e he => h e (hperm.mem_iff.mpr he)

theorem mem_ratingDetails {c : List (String × RangeTable)} :
    ∀ {rs : List (String × Option ℚ)} {n r : String},
    (n, r) ∈ ratingDetails c rs → ∃ ov, (n, ov) ∈ rs ∧ rateEntry c n ov = some r := by
  intro rs
  induction rs with
  | nil => intro n r h; cases h
  | cons p rest ih =>
    intro n r h
    obtain ⟨m, ov0⟩ := p
    cases hr : rateEntry c m ov0 with
    | none =>
      simp only [ratingDetails, hr] at h
      obtain ⟨ov, hm, he⟩ := ih h
      exact ⟨ov, List.mem_cons_of_mem _ hm, he⟩
    | some r0 =>
      simp only [ratingDetails, hr] at h
      rcases List.mem_cons.mp h with heq | hrest
      · injection heq with h1 h2
        subst h1; subst h2
        exact ⟨ov0, List.mem_cons_self _ _, hr⟩
      · obtain ⟨ov, hm, he⟩ := ih hrest
        exact ⟨ov, List.mem_cons_of_mem _ hm, he⟩

theorem ratingDetails_lookup_none {c : List (String × RangeTable)} :
    ∀ {rs : List (String × Option ℚ)} {n : String}, n ∉ rs.map Prod.fst →
    (ratingDetails c rs).lookup n = none := by
  intro rs
  induction rs with
  | nil => intro n _; rfl
  | cons p rest ih =>
    intro n h
    obtain ⟨m, ov0⟩ := p
    simp only [List.map_cons, List.mem_cons, not_or] at h
    cases hr : rateEntry c m ov0 with
    | none =>
      simp only [ratingDetails, hr]
      exact ih h.2
    | some r0 =>
      simp only [ratingDetails, hr, List.lookup]
      rw [beq_false_of_ne h.1]
      exact ih h.2

theorem ratingDetails_lookup_eq {c : List (String × RangeTable)} :
    ∀ {rs : List (String × Option ℚ)} {n : String} {ov : Option ℚ},
    (rs.map Prod.fst).Nodup → (n, ov) ∈ rs →
    (ratingDetails c rs).lookup n = rateEntry c n ov := by
  intro rs
  induction rs with
  | nil => intro n ov _ hm; cases hm
  | cons p rest ih =>
    intro n ov hnd hm
    obtain ⟨m, ov0⟩ := p
    simp only [List.map_cons, List.nodup_cons] at hnd
    rcases List.mem_cons.mp hm with heq | hrest
    · injection heq with h1 h2
      subst h1; subst h2
      cases hr : rateEntry c n ov with
      | none =>
        simp only [ratingDetails, hr]
        rw [ratingDetails_lookup_none hnd.1]
      | some r0 =>
        simp only [ratingDetails, hr, List.lookup, beq_self_eq_true]
    · have hne : n ≠ m := by
        rintro rfl
        exact hnd.1 (List.mem_map.mpr ⟨(n, ov), hrest, rfl⟩)
      cases hr : rateEntry c m ov0 with
      | none =>
        simp only [ratingDetails, hr]
        exact ih hnd.2 hrest
      | some r0 =>
        simp only [ratingDetails, hr, List.lookup]
        rw [beq_false_of_ne hne]
        exact ih hnd.2 hrest

theorem rateEntry_some {c : List (String × RangeTable)} {n r : String}
    {ov : Option ℚ} (h : rateEntry c n ov = some r) :
    ∃ v rc, ov = some v ∧ c.lookup n = some rc ∧ findRating rc v = some r := by
  cases ov with
  | none => simp [rateEntry] at h
  | some v =>
    cases hc : c.lookup n with
    | none =>
      simp only [rateEntry, hc] at h
      cases h
    | some rc =>
      simp only [rateEntry, hc] at h
      exact ⟨v, rc, rfl, rfl, h⟩

theorem detail_rating_mem {t n r : String} {rs : List (String × Option ℚ)}
    (h : (n, r) ∈ ratingDetails (criteriaFor t) rs) :
    r = "great" ∨ r = "good" ∨ r = "no_buy" := by
  obtain ⟨ov, _, he⟩ := mem_ratingDetails h
  obtain ⟨v, rc, _, hc, hf⟩ := rateEntry_some he
  obtain ⟨lo, hi, hm, _⟩ := findRating_mem hf
  have hrc := lookup_mem hc
  have hv : ∀ p ∈ VALUE_CRITERIA, ∀ e ∈ p.2,
      e.1 = "great" ∨ e.1 = "good" ∨ e.1 = "no_buy" := by
    with_unfolding_all decide
  have hg : ∀ p ∈ GROWTH_MOMENTUM_CRITERIA, ∀ e ∈ p.2,
      e.1 = "great" ∨ e.1 = "good" ∨ e.1 = "no_buy" := by
    with_unfolding_all decide
  unfold criteriaFor at hrc
  by_cases ht : (t == "value") = true
  · rw [if_pos ht] at hrc
    exact hv (n, rc) hrc (r, lo, hi) hm
  · rw [if_neg (by simpa using ht)] at hrc
    exact hg (n, rc) hrc (r, lo, hi) hm

theorem countsOf_total {dl : List (String × String)}
    (h : ∀ p ∈ dl, p.2 = "great" ∨ p.2 = "good" ∨ p.2 = "no_buy") :
    (countsOf dl).total = dl.length := by
  induction dl with
  | nil => rfl
  | cons p rest ih =>
    obtain ⟨n, r⟩ := p
    have hrest := ih fun q hq => h q (List.mem_cons_of_mem _ hq)
    have hr := h (n, r) (List.mem_cons_self _ _)
    rcases hr with hr | hr | hr <;> subst hr <;>
      simp [countsOf, bumpCount, RatingCounts.total, List.length_cons] at hrest ⊢ <;>
      omega

theorem ratingCountsOf_total (ratios : Option (List (String × Option ℚ)))
    (t : String) : (ratingCountsOf ratios t).total = (detailsOf ratios t).length := by
  cases ratios with
  | none => rfl
  | some rs =>
    exact countsOf_total fun p hp => by
      obtain ⟨n, r⟩ := p
      exact detail_rating_mem hp

theorem classify_stock_eq (ratios : Option (List (String × Option ℚ)))
    (t : String) :
    classify_stock ratios t =
      (classificationLabel (ratingCountsOf ratios t) t, detailsOf ratios t) := by
  cases ratios with
  | none => rfl
  | some rs =>
    cases rs with
    | nil => rfl
    | cons p rest =>
      simp only [classify_stock, List.isEmpty_cons, Bool.false_eq_true, if_false,
        ratingCountsOf, detailsOf]

theorem dictSet_keys (d : List (String × Option ℚ)) (k : String) (v : Option ℚ) :
    (dictSet d k v).map Prod.fst =
      if k ∈ d.map Prod.fst then d.map Prod.fst else d.map Prod.fst ++ [k] := by
  induction d with
  | nil => simp [dictSet]
  | cons p rest ih =>
    obtain ⟨k0, v0⟩ := p
    by_cases hk : k0 = k
    · subst hk
      simp [dictSet]
    · simp only [dictSet, beq_false_of_ne hk, Bool.false_eq_true, if_false,
        List.map_cons, List.mem_cons, ih]
      by_cases hm : k ∈ rest.map Prod.fst
      · simp [hm, Ne.symm hk]
      · simp [hm, Ne.symm hk]

theorem dictSet_length (d : List (String × Option ℚ)) (k : String) (v : Option ℚ) :
    (dictSet d k v).length =
      if k ∈ d.map Prod.fst then d.length else d.length + 1 := by
  have h1 := dictSet_keys d k v
  have h2 : (dictSet d k v).length = ((dictSet d k v).map Prod.fst).length :=
    (List.length_map _ _).symm
  have h3 : d.length = (d.map Prod.fst).length := (List.length_map _ _).symm
  rw [h2, h1, h3]
  by_cases hm : k ∈ d.map Prod.fst
  · simp [hm]
  · simp [hm]

theorem dictSet_nodup {d : List (String × Option ℚ)} (k : String) (v : Option ℚ)
    (h : (d.map Prod.fst).Nodup) : ((dictSet d k v).map Prod.fst).Nodup := by
  rw [dictSet_keys]
  by_cases hm : k ∈ d.map Prod.fst
  · simpa [hm] using h
  · simp only [hm, if_false]
    refine List.Nodup.append h (List.nodup_singleton k) ?_
    intro a ha hb
    simp only [List.mem_singleton] at hb
    exact hm (hb ▸ ha)

theorem dictSet_keys_mono {d : List (String × Option ℚ)} (k : String)
    (v : Option ℚ) {k' : String} (h : k' ∈ d.map Prod.fst) :
    k' ∈ (dictSet d k v).map Prod.fst := by
  rw [dictSet_keys]
  by_cases hm : k ∈ d.map Prod.fst
  · simpa [hm] using h
  · simp [hm, h]

theorem dictSet_lookup_ne (d : List (String × Option ℚ)) {k k' : String}
    (h : k' ≠ k) (v : Option ℚ) : (dictSet d k v).lookup k' = d.lookup k' := by
  induction d with
  | nil => simp [dictSet, List.lookup, beq_false_of_ne h]
  | cons p rest ih =>
    obtain ⟨k0, v0⟩ := p
    by_cases hk : k0 = k
    · subst hk
      simp only [dictSet, beq_self_eq_true, if_true, List.lookup,
        beq_false_of_ne h]
    · simp only [dictSet, beq_false_of_ne hk, Bool.false_eq_true, if_false,
        List.lookup]
      cases hbe : (k' == k0) with
      | true => rfl
      | false => exact ih

theorem dictSet_lookup_self (d : List (String × Option ℚ)) (k : String)
    (v : Option ℚ) : (dictSet d k v).lookup k = some v := by
  induction d with
  | nil => simp [dictSet, List.lookup]
  | cons p rest ih =>
    obtain ⟨k0, v0⟩ := p
    by_cases hk : k0 = k
    · subst hk
      simp [dictSet, List.lookup]
    · simp only [dictSet, beq_false_of_ne hk, Bool.false_eq_true, if_false,
        List.lookup, beq_false_of_ne (Ne.symm hk)]
      exact ih

theorem dictSet_length_of_mem {d : List (String × Option ℚ)} {k : String}
    (v : Option ℚ) (h : k ∈ d.map Prod.fst) : (dictSet d k v).length = d.length := by
  rw [dictSet_length, if_pos h]

theorem DictExt.refl (d : List (String × Option ℚ)) (ks : List String) (n : Nat) :
    DictExt d d ks n :=
  ⟨le_refl _, Nat.le_add_right _ _, fun h => h, fun _ h => h, fun _ _ => rfl⟩

theorem DictExt.set {d g : List (String × Option ℚ)} {ks : List String} {n : Nat}
    (h : DictExt d g ks n) {k : String} (hk : k ∈ ks) (v : Option ℚ) :
    DictExt d (dictSet g k v) ks (n + 1) := by
  obtain ⟨h1, h2, h3, h4, h5⟩ := h
  refine ⟨?_, ?_, ?_, ?_, ?_⟩
  · calc d.length ≤ g.length := h1
      _ ≤ (dictSet g k v).length := by
          rw [dictSet_length]; split <;> omega
  · calc (dictSet g k v).length ≤ g.length + 1 := by
          rw [dictSet_length]; split <;> omega
      _ ≤ d.length + (n + 1) := by omega
  · exact fun hn => dictSet_nodup k v (h3 hn)
  · exact fun k' hk' => dictSet_keys_mono k v (h4 k' hk')
  · intro k' hk'
    have hne : k' ≠ k := fun he => hk' (he ▸ hk)
    rw [dictSet_lookup_ne _ hne, h5 k' hk']

theorem DictExt.mono {d g : List (String × Option ℚ)} {ks : List String}
    {n m : Nat} (h : DictExt d g ks n) (hnm : n ≤ m) : DictExt d g ks m :=
  ⟨h.1, le_trans h.2.1 (by omega), h.2.2.1, h.2.2.2.1, h.2.2.2.2⟩

theorem DictExt.comp {d g e : List (String × Option ℚ)} {ks : List String}
    {n m : Nat} (h1 : DictExt d g ks n) (h2 : DictExt g e ks m) :
    DictExt d e ks (n + m) := by
  obtain ⟨a1, a2, a3, a4, a5⟩ := h1
  obtain ⟨b1, b2, b3, b4, b5⟩ := h2
  exact ⟨le_trans a1 b1, by omega, fun h => b3 (a3 h),
    fun k hk => b4 k (a4 k hk), fun k hk => (b5 k hk).trans (a5 k hk)⟩

theorem ppRatios_ext (sd : StockData) (hist : List ℚ)
    (d : List (String × Option ℚ)) : DictExt d (ppRatios sd hist d) growthOnlyKeys 3 := by
  unfold ppRatios
  dsimp only
  repeat' first
    | exact DictExt.refl _ _ _
    | apply DictExt.set
    | decide
    | split

theorem growthInfoRatios_ext (info : Info) (d : List (String × Option ℚ)) :
    DictExt d (growthInfoRatios info d) growthOnlyKeys 6 := by
  unfold growthInfoRatios
  repeat' first
    | exact DictExt.refl _ _ _
    | apply DictExt.set
    | decide

theorem peGrowthRatios_ext (d : List (String × Option ℚ)) :
    DictExt d (peGrowthRatios d) growthOnlyKeys 1 := by
  unfold peGrowthRatios
  dsimp only
  repeat' first
    | exact DictExt.refl _ _ _
    | apply DictExt.set
    | decide
    | split

theorem growthRatios_ext (sd : StockData) (info : Info) (t : String)
    (d : List (String × Option ℚ)) :
    DictExt d (growthRatios sd info t d) growthOnlyKeys 10 := by
  unfold growthRatios
  split
  · cases sd.historical_data with
    | none => exact DictExt.refl _ _ _
    | some hist =>
      exact ((ppRatios_ext sd hist d).comp
        ((growthInfoRatios_ext info _).comp (peGrowthRatios_ext _))).mono (by omega)
  · exact DictExt.refl _ _ _

theorem growthRatios_not_growth (sd : StockData) (info : Info) {t : String}
    (h : (t == "growth_momentum") = false) (d : List (String × Option ℚ)) :
    growthRatios sd info t d = d := by
  unfold growthRatios
  rw [h]
  rfl

theorem statementRatios_cases (sd : StockData) (d : List (String × Option ℚ)) :
    statementRatios sd d = d ∨ ∃ v, statementRatios sd d = dictSet d "current_ratio" v := by
  unfold statementRatios
  dsimp only
  repeat' split
  all_goals first
    | exact Or.inl rfl
    | exact Or.inr ⟨_, rfl⟩

theorem baseRatios_eq (i : Info) : baseRatios i =
    [("pe_ratio", i.trailingPE.orElse fun _ => i.forwardPE),
     ("pb_ratio", i.priceToBook),
     ("ps_ratio", i.priceToSalesTrailing12Months),
     ("debt_to_equity", match i.debtToEquity with
       | some d => if d ≠ 0 then some (d / 100) else none
       | none => none),
     ("roe", i.returnOnEquity),
     ("current_ratio", i.currentRatio),
     ("dividend_yield", some (i.dividendYield.getD 0)),
     ("profit_margin", i.profitMargins),
     ("peg_ratio", i.pegRatio)] := rfl

theorem calculate_ratios_eq (sd : StockData) (i : Info) (t : String)
    (h : sd.info = some i) :
    calculate_ratios (some sd) t =
      some (statementRatios sd (growthRatios sd i t (baseRatios i))) := by
  simp only [calculate_ratios, h]

theorem calculate_ratios_props (sd : StockData) (i : Info) (t : String)
    (h : sd.info = some i) (rs : List (String × Option ℚ))
    (hrs : calculate_ratios (some sd) t = some rs) :
    (rs.map Prod.fst).Nodup
    ∧ 9 ≤ rs.length ∧ rs.length ≤ 19
    ∧ (t = "value" → rs.length = 9)
    ∧ rs.lookup "dividend_yield" = some (some (i.dividendYield.getD 0))
    ∧ rs.lookup "debt_to_equity" =
        some (match i.debtToEquity with
              | some d => if d ≠ 0 then some (d / 100) else none
              | none => none) := by
  rw [calculate_ratios_eq sd i t h] at hrs
  injection hrs with hrs
  subst hrs
  have hbase_len : (baseRatios i).length = 9 := by rw [baseRatios_eq]; rfl
  have hbase_nodup : ((baseRatios i).map Prod.fst).Nodup := by
    rw [baseRatios_eq]; simp
  have hcr : "current_ratio" ∈ (baseRatios i).map Prod.fst := by
    rw [baseRatios_eq]; simp
  have hg := growthRatios_ext sd i t (baseRatios i)
  obtain ⟨hg1, hg2, hg3, hg4, hg5⟩ := hg
  have hcr_g : "current_ratio" ∈ (growthRatios sd i t (baseRatios i)).map Prod.fst :=
    hg4 _ hcr
  have hslen : (statementRatios sd (growthRatios sd i t (baseRatios i))).length =
      (growthRatios sd i t (baseRatios i)).length := by
    rcases statementRatios_cases sd (growthRatios sd i t (baseRatios i)) with hs | ⟨v, hs⟩
    · rw [hs]
    · rw [hs, dictSet_length_of_mem v hcr_g]
  have hsnodup : ((statementRatios sd (growthRatios sd i t (baseRatios i))).map Prod.fst).Nodup := by
    rcases statementRatios_cases sd (growthRatios sd i t (baseRatios i)) with hs | ⟨v, hs⟩
    · rw [hs]; exact hg3 hbase_nodup
    · rw [hs]; exact dictSet_nodup _ v (hg3 hbase_nodup)
  have hslookup : ∀ k : String, k ≠ "current_ratio" →
      (statementRatios sd (growthRatios sd i t (baseRatios i))).lookup k =
        (growthRatios sd i t (baseRatios i)).lookup k := by
    intro k hk
    rcases statementRatios_cases sd (growthRatios sd i t (baseRatios i)) with hs | ⟨v, hs⟩
    · rw [hs]
    · rw [hs, dictSet_lookup_ne _ hk]
  refine ⟨hsnodup, ?_, ?_, ?_, ?_, ?_⟩
  · rw [hslen]; omega
  · rw [hslen]; omega
  · intro ht
    subst ht
    rw [hslen, growthRatios_not_growth sd i (by decide) _, hbase_len]
  · rw [hslookup _ (by decide), hg5 _ (by decide), baseRatios_eq]
    rfl
  · rw [hslookup _ (by decide), hg5 _ (by decide), baseRatios_eq]
    rfl

theorem classificationLabel_insufficient_iff (c : RatingCounts) (t : String) :
    classificationLabel c t = "Insufficient data for classification" ↔ c.total = 0 := by
  simp only [classificationLabel]
  by_cases h : c.total = 0
  · simp [h]
  · rw [if_neg h]
    constructor
    · intro hl
      exfalso
      split_ifs at hl <;> simp_all
    · intro h0
      exact absurd h0 h

theorem classificationLabel_value_mem (c : RatingCounts) :
    classificationLabel c "value" ∈
      (["GREAT BUY", "GOOD BUY", "NO BUY",
        "Insufficient data for classification"] : List String) := by
  simp only [classificationLabel]
  split_ifs <;> simp_all

theorem classificationLabel_growth_mem (c : RatingCounts) :
    classificationLabel c "growth_momentum" ∈
      (["GREAT GROWTH OPPORTUNITY", "GOOD GROWTH OPPORTUNITY",
        "POOR GROWTH OPPORTUNITY",
        "Insufficient data for classification"] : List String) := by
  simp only [classificationLabel]
  split_ifs <;> simp_all

/-- C2: classify_stock draws its label from the fixed per-analysis-type sets
('GREAT BUY'/'GOOD BUY'/'NO BUY' for value, the three GROWTH OPPORTUNITY
labels for growth/momentum), and the label is the insufficiency message
exactly when no ratio received a rating — in particular for a None or empty
ratios dict. -/
theorem classify_stock_label_set (ratios : Option (List (String × Option ℚ))) :
    (classify_stock ratios "value").1 ∈ (["GREAT BUY", "GOOD BUY", "NO BUY",
        "Insufficient data for classification"] : List String)
    ∧ (classify_stock ratios "growth_momentum").1 ∈ (["GREAT GROWTH OPPORTUNITY",
        "GOOD GROWTH OPPORTUNITY", "POOR GROWTH OPPORTUNITY",
        "Insufficient data for classification"] : List String)
    ∧ ((classify_stock ratios "value").1 = "Insufficient data for classification"
        ↔ (classify_stock ratios "value").2 = [])
    ∧ ((classify_stock ratios "growth_momentum").1 = "Insufficient data for classification"
        ↔ (classify_stock ratios "growth_momentum").2 = [])
    ∧ classify_stock none "value" = ("Insufficient data for classification", [])
    ∧ classify_stock (some []) "value" = ("Insufficient data for classification", [])
    ∧ classify_stock none "growth_momentum" = ("Insufficient data for classification", [])
    ∧ classify_stock (some []) "growth_momentum" = ("Insufficient data for classification", []) := by
  have hv := classify_stock_eq ratios "value"
  have hg := classify_stock_eq ratios "growth_momentum"
  refine ⟨?_, ?_, ?_, ?_, rfl, rfl, rfl, rfl⟩
  · rw [hv]; exact classificationLabel_value_mem _
  · rw [hg]; exact classificationLabel_growth_mem _
  · rw [hv]
    show classificationLabel _ _ = _ ↔ detailsOf ratios "value" = []
    rw [classificationLabel_insufficient_iff, ratingCountsOf_total]
    exact List.length_eq_zero
  · rw [hg]
    show classificationLabel _ _ = _ ↔ detailsOf ratios "growth_momentum" = []
    rw [classificationLabel_insufficient_iff, ratingCountsOf_total]
    exact List.length_eq_zero

/-- C3: the classification label is a function of the three rating counts
alone — two ratios dicts whose rated ratios produce the same counts under the
same analysis type receive the same label. -/
theorem classify_stock_counts_determine_label (t : String)
    (r1 r2 : Option (List (String × Option ℚ)))
    (h : ratingCountsOf r1 t = ratingCountsOf r2 t) :
    (classify_stock r1 t).1 = (classify_stock r2 t).1 := by
  rw [classify_stock_eq r1 t, classify_stock_eq r2 t]
  show classificationLabel _ t = classificationLabel _ t
  rw [h]

theorem classify_stock_counts_determine_label_witness :
    ratingCountsOf (some [("pe_ratio", some 10)]) "value" =
        ratingCountsOf (some [("pb_ratio", some 1)]) "value"
    ∧ (classify_stock (some [("pe_ratio", some 10)]) "value").1 =
        (classify_stock (some [("pb_ratio", some 1)]) "value").1 :=
  ⟨by with_unfolding_all decide,
   classify_stock_counts_determine_label "value" _ _ (by with_unfolding_all decide)⟩

theorem ratingDetails_filter (c : List (String × RangeTable))
    (rs : List (String × Option ℚ)) :
    ratingDetails c (rs.filter fun p => (c.lookup p.1).isSome) = ratingDetails c rs := by
  induction rs with
  | nil => rfl
  | cons p rest ih =>
    obtain ⟨n, ov⟩ := p
    rw [List.filter_cons]
    dsimp only
    by_cases hc : (c.lookup n).isSome = true
    · rw [if_pos hc]
      cases hr : rateEntry c n ov <;> simp [ratingDetails, hr, ih]
    · rw [if_neg hc]
      have hl : c.lookup n = none := Option.not_isSome_iff_eq_none.mp hc
      have hrE : rateEntry c n ov = none := by
        cases ov with
        | none => rfl
        | some v => simp [rateEntry, hl]
      rw [ih]
      simp [ratingDetails, hrE]

/-- C4: ratio names absent from the analysis type's criteria table never
influence classify_stock — the result on the restriction of the dict to the
table's keys equals the result on the full dict. -/
theorem classify_stock_restrict (t : String) (rs : List (String × Option ℚ)) :
    classify_stock (some (restrictTo t rs)) t = classify_stock (some rs) t := by
  rw [classify_stock_eq, classify_stock_eq]
  have hd : detailsOf (some (restrictTo t rs)) t = detailsOf (some rs) t := by
    show ratingDetails _ _ = ratingDetails _ _
    exact ratingDetails_filter _ _
  have hcnt : ratingCountsOf (some (restrictTo t rs)) t = ratingCountsOf (some rs) t := by
    unfold ratingCountsOf
    rw [hd]
  rw [hcnt, hd]

/-- C8: in both criteria tables the three rating ranges of every ratio are
pairwise disjoint, so a value matches at most one rating and the
first-match-then-break loop returns the same result for any ordering of the
rating ranges. -/
theorem criteria_ranges_disjoint_and_order_free (t n : String) (rc : RangeTable)
    (h : (criteriaFor t).lookup n = some rc) :
    rc.Pairwise disjointRanges
    ∧ ∀ (rc' : RangeTable) (v : ℚ), rc.Perm rc' → findRating rc' v = findRating rc v :=
  ⟨tables_pairwise h, fun _ v hp => findRating_perm (tables_pairwise h) hp v⟩

theorem criteria_ranges_disjoint_and_order_free_witness :
    ([("great", Bound.fin 0, Bound.fin 15), ("good", Bound.fin 15, Bound.fin 25),
      ("no_buy", Bound.fin 25, Bound.posInf)] : RangeTable).Pairwise disjointRanges
    ∧ findRating [("no_buy", Bound.fin 25, Bound.posInf), ("good", Bound.fin 15, Bound.fin 25),
        ("great", Bound.fin 0, Bound.fin 15)] 10 =
      findRating [("great", Bound.fin 0, Bound.fin 15), ("good", Bound.fin 15, Bound.fin 25),
        ("no_buy", Bound.fin 25, Bound.posInf)] 10 := by
  have h := criteria_ranges_disjoint_and_order_free "value" "pe_ratio"
    [("great", Bound.fin 0, Bound.fin 15), ("good", Bound.fin 15, Bound.fin 25),
     ("no_buy", Bound.fin 25, Bound.posInf)] rfl
  exact ⟨h.1, h.2 _ 10 (by with_unfolding_all decide)⟩

/-- C1 counterexample: pe_ratio has a non-None value (-1) and an entry in the
value criteria table, yet classify_stock assigns it no rating at all — the
value lies below every range, so rating_details omits it. -/
theorem classify_unrated_ratio_cex :
    (VALUE_CRITERIA.lookup "pe_ratio").isSome = true
    ∧ ("pe_ratio", some (-1 : ℚ)) ∈ ([("pe_ratio", some (-1 : ℚ))] : List (String × Option ℚ))
    ∧ (classify_stock (some [("pe_ratio", some (-1 : ℚ))]) "value").2.lookup "pe_ratio" = none := by
  refine ⟨rfl, List.mem_singleton.mpr rfl, ?_⟩
  with_unfolding_all decide

/-- C1 amended: a ratio with a non-None value and a criteria entry receives a
rating r (recorded in rating_details) exactly when r's half-open range
contains the value; by disjointness of the ranges that rating is unique, and
a value lying in no range yields no rating. -/
theorem classify_assigns_unique_matching_rating (t : String)
    (rs : List (String × Option ℚ)) (n : String) (v : ℚ) (rc : RangeTable)
    (r : String) (hnd : (rs.map Prod.fst).Nodup) (hm : (n, some v) ∈ rs)
    (hc : (criteriaFor t).lookup n = some rc) :
    (classify_stock (some rs) t).2.lookup n = some r ↔
      ∃ lo hi, (r, lo, hi) ∈ rc ∧ inRange lo hi v = true := by
  have h2 : (classify_stock (some rs) t).2 = ratingDetails (criteriaFor t) rs := by
    rw [classify_stock_eq]
    rfl
  rw [h2, ratingDetails_lookup_eq hnd hm]
  simp only [rateEntry, hc]
  constructor
  · exact findRating_mem
  · rintro ⟨lo, hi, hmem, hv⟩
    exact findRating_of_mem (tables_pairwise hc) hmem hv

theorem classify_assigns_unique_matching_rating_witness :
    (([("pe_ratio", some (10 : ℚ))].map Prod.fst).Nodup)
    ∧ (classify_stock (some [("pe_ratio", some (10 : ℚ))]) "value").2.lookup "pe_ratio" =
        some "great" := by
  refine ⟨by simp, ?_⟩
  exact (classify_assigns_unique_matching_rating "value" _ "pe_ratio" 10
      [("great", Bound.fin 0, Bound.fin 15), ("good", Bound.fin 15, Bound.fin 25),
       ("no_buy", Bound.fin 25, Bound.posInf)] "great"
      (by simp) (List.mem_singleton.mpr rfl) rfl).mpr
    ⟨Bound.fin 0, Bound.fin 15, by with_unfolding_all decide, by with_unfolding_all decide⟩

/-- C5 amended: calculate_ratios, on accepted stock data, returns a ratios
dict of between 9 and 19 named entries — exactly 9 under value analysis, and
up to 19 (not 15) under growth/momentum analysis when price history, market
data and all growth fields are available. -/
theorem calculate_ratios_count (sd : StockData) (t : String)
    (rs : List (String × Option ℚ)) (h : calculate_ratios (some sd) t = some rs) :
    9 ≤ rs.length ∧ rs.length ≤ 19 ∧ (t = "value" → rs.length = 9) := by
  cases hi : sd.info with
  | none =>
    simp only [calculate_ratios, hi] at h
    cases h
  | some i =>
    obtain ⟨_, h9, h19, hv, _, _⟩ := calculate_ratios_props sd i t hi rs h
    exact ⟨h9, h19, hv⟩

theorem calculate_ratios_count_witness :
    calculate_ratios (some sampleStock) "value" = some sampleRatios
    ∧ (9 ≤ sampleRatios.length ∧ sampleRatios.length ≤ 19
        ∧ ("value" = "value" → sampleRatios.length = 9)) :=
  ⟨by with_unfolding_all decide,
   calculate_ratios_count sampleStock "value" sampleRatios (by with_unfolding_all decide)⟩

/-- C5 counterexample: for a fully populated growth/momentum analysis the
returned ratios dict has 19 named entries, exceeding the claimed maximum of
15. -/
theorem calculate_ratios_count_cex :
    (calculate_ratios (some cexStock) "growth_momentum").map List.length = some 19 := by
  with_unfolding_all decide

/-- C9: when the provider supplies no dividend yield, calculate_ratios stores
0 (not None) for dividend_yield, and under value analysis the stock is rated
no_buy on dividend_yield because 0 lies in [0, 0.01). -/
theorem dividend_yield_missing_rated_no_buy (sd : StockData) (i : Info)
    (t : String) (rs : List (String × Option ℚ)) (hi : sd.info = some i)
    (hdy : i.dividendYield = none) (h : calculate_ratios (some sd) t = some rs) :
    rs.lookup "dividend_yield" = some (some 0)
    ∧ (classify_stock (some rs) "value").2.lookup "dividend_yield" = some "no_buy" := by
  obtain ⟨hnd, _, _, _, hdyl, _⟩ := calculate_ratios_props sd i t hi rs h
  rw [hdy] at hdyl
  refine ⟨hdyl, ?_⟩
  have hm : ("dividend_yield", some (0 : ℚ)) ∈ rs := lookup_mem hdyl
  exact (classify_assigns_unique_matching_rating "value" rs "dividend_yield" 0
      [("great", Bound.fin 0.03, Bound.posInf), ("good", Bound.fin 0.01, Bound.fin 0.03),
       ("no_buy", Bound.fin 0, Bound.fin 0.01)] "no_buy" hnd hm
      (by with_unfolding_all decide)).mpr
    ⟨Bound.fin 0, Bound.fin 0.01, by with_unfolding_all decide, by with_unfolding_all decide⟩

theorem dividend_yield_missing_rated_no_buy_witness :
    sampleStock.info = some sampleInfo
    ∧ sampleInfo.dividendYield = none
    ∧ (sampleRatios.lookup "dividend_yield" = some (some 0)
        ∧ (classify_stock (some sampleRatios) "value").2.lookup "dividend_yield" =
            some "no_buy") :=
  ⟨rfl, rfl,
   dividend_yield_missing_rated_no_buy sampleStock sampleInfo "value" sampleRatios
     rfl rfl (by with_unfolding_all decide)⟩

/-- C10: a missing or zero debtToEquity field makes calculate_ratios store
None for debt_to_equity (the truthiness guard skips the division), so the
ratio is excluded from rating_details and the counts — even though a stored
0.0 would have fallen in the 'great' range [0, 0.5). -/
theorem debt_to_equity_zero_excluded (sd : StockData) (i : Info) (t : String)
    (rs : List (String × Option ℚ)) (hi : sd.info = some i)
    (hdte : i.debtToEquity = none ∨ i.debtToEquity = some 0)
    (h : calculate_ratios (some sd) t = some rs) :
    rs.lookup "debt_to_equity" = some none
    ∧ (classify_stock (some rs) t).2.lookup "debt_to_equity" = none
    ∧ findRating [("great", Bound.fin 0, Bound.fin 0.5), ("good", Bound.fin 0.5, Bound.fin 1.5),
        ("no_buy", Bound.fin 1.5, Bound.posInf)] 0 = some "great" := by
  obtain ⟨hnd, _, _, _, _, hdtel⟩ := calculate_ratios_props sd i t hi rs h
  have hval : rs.lookup "debt_to_equity" = some none := by
    rcases hdte with h0 | h0 <;> rw [h0] at hdtel <;> simpa using hdtel
  refine ⟨hval, ?_, by with_unfolding_all decide⟩
  have hm : ("debt_to_equity", (none : Option ℚ)) ∈ rs := lookup_mem hval
  have h2 : (classify_stock (some rs) t).2 = ratingDetails (criteriaFor t) rs := by
    rw [classify_stock_eq]
    rfl
  rw [h2, ratingDetails_lookup_eq hnd hm]
  rfl

theorem debt_to_equity_zero_excluded_witness :
    zeroDebtStock.info = some zeroDebtInfo
    ∧ zeroDebtInfo.debtToEquity = some 0
    ∧ ((sampleRatios.lookup "debt_to_equity" = some none)
        ∧ (classify_stock (some sampleRatios) "value").2.lookup "debt_to_equity" = none
        ∧ findRating [("great", Bound.fin 0, Bound.fin 0.5), ("good", Bound.fin 0.5, Bound.fin 1.5),
            ("no_buy", Bound.fin 1.5, Bound.posInf)] 0 = some "great") :=
  ⟨rfl, rfl,
   debt_to_equity_zero_excluded zeroDebtStock zeroDebtInfo "value" sampleRatios
     rfl (Or.inr rfl) (by with_unfolding_all decide)⟩

/-- C7: the aggregation arithmetic never divides by zero — classify_stock
computes the three percentages only after the total_rated = 0 case returned
the insufficiency result, and the computed percentages sum exactly to 1;
StockReport.strength_percentage returns 0 when total_rated is 0, and
otherwise equals (great_count + good_count) / total_rated * 100. -/
theorem aggregation_no_div_zero :
    (∀ c : RatingCounts, c.total ≠ 0 →
      (c.great : ℚ) / (c.total : ℚ) + (c.good : ℚ) / (c.total : ℚ)
        + (c.no_buy : ℚ) / (c.total : ℚ) = 1)
    ∧ (∀ (ratios : Option (List (String × Option ℚ))) (t : String),
        (ratingCountsOf ratios t).total = 0 →
        classify_stock ratios t = ("Insufficient data for classification", detailsOf ratios t))
    ∧ (∀ rep : StockReport, rep.total_rated = 0 → rep.strength_percentage = 0)
    ∧ (∀ rep : StockReport, rep.total_rated ≠ 0 →
        rep.strength_percentage =
          ((rep.great_count : ℚ) + (rep.good_count : ℚ)) / (rep.total_rated : ℚ) * 100) := by
  refine ⟨?_, ?_, ?_, ?_⟩
  · intro c h
    have ht : (c.total : ℚ) ≠ 0 := Nat.cast_ne_zero.mpr h
    rw [div_add_div_same, div_add_div_same, div_eq_one_iff_eq ht]
    simp only [RatingCounts.total]
    push_cast
    ring
  · intro ratios t h
    rw [classify_stock_eq, (classificationLabel_insufficient_iff (ratingCountsOf ratios t) t).mpr h]
  · intro rep h
    rw [StockReport.strength_percentage, if_pos h]
    norm_num
  · intro rep h
    rw [StockReport.strength_percentage, if_neg h]

theorem aggregation_no_div_zero_witness :
    (((⟨1, 1, 1⟩ : RatingCounts).great : ℚ) / ((⟨1, 1, 1⟩ : RatingCounts).total : ℚ)
      + ((⟨1, 1, 1⟩ : RatingCounts).good : ℚ) / ((⟨1, 1, 1⟩ : RatingCounts).total : ℚ)
      + ((⟨1, 1, 1⟩ : RatingCounts).no_buy : ℚ) / ((⟨1, 1, 1⟩ : RatingCounts).total : ℚ) = 1)
    ∧ classify_stock (some [("pe_ratio", some (-1 : ℚ))]) "value" =
        ("Insufficient data for classification",
         detailsOf (some [("pe_ratio", some (-1 : ℚ))]) "value")
    ∧ emptyReport.strength_percentage = 0
    ∧ oneRatedReport.strength_percentage =
        ((oneRatedReport.great_count : ℚ) + (oneRatedReport.good_count : ℚ))
          / (oneRatedReport.total_rated : ℚ) * 100 :=
  ⟨aggregation_no_div_zero.1 ⟨1, 1, 1⟩ (by decide),
   aggregation_no_div_zero.2.1 (some [("pe_ratio", some (-1 : ℚ))]) "value"
     (by with_unfolding_all decide),
   aggregation_no_div_zero.2.2.1 emptyReport (by decide),
   aggregation_no_div_zero.2.2.2 oneRatedReport (by decide)⟩

theorem lookup_of_mem_nodup {α : Type} {l : List (String × α)}
    (hnd : (l.map Prod.fst).Nodup) {n : String} {v : α} (hm : (n, v) ∈ l) :
    l.lookup n = some v := by
  induction l with
  | nil => cases hm
  | cons p rest ih =>
    obtain ⟨m, w⟩ := p
    simp only [List.map_cons, List.nodup_cons] at hnd
    rcases List.mem_cons.mp hm with heq | hrest
    · injection heq with h1 h2
      subst h1; subst h2
      simp [List.lookup]
    · have hne : n ≠ m := by
        rintro rfl
        exact hnd.1 (List.mem_map.mpr ⟨(n, v), hrest, rfl⟩)
      rw [List.lookup, beq_false_of_ne hne]
      exact ih hnd.2 hrest

theorem ratingDetails_values_some {c : List (String × RangeTable)}
    {rs : List (String × Option ℚ)} (hnd : (rs.map Prod.fst).Nodup) :
    ∀ p ∈ ratingDetails c rs, ∃ v : ℚ, rs.lookup p.1 = some (some v) := by
  intro p hp
  obtain ⟨n, r⟩ := p
  obtain ⟨ov, hm, he⟩ := mem_ratingDetails hp
  obtain ⟨v, rc, hov, _, _⟩ := rateEntry_some he
  subst hov
  exact ⟨v, lookup_of_mem_nodup hnd hm⟩

theorem explanations_keys (t : String) (rs : List (String × Option ℚ)) :
    ∀ dl : List (String × String),
    (∀ p ∈ dl, ∃ v : ℚ, rs.lookup p.1 = some (some v)) →
    (dl.filterMap fun p =>
      match rs.lookup p.1 with
      | some (some v) => some (p.1, get_ratio_explanation p.1 (some v) p.2 t)
      | _ => none).map Prod.fst = dl.map Prod.fst := by
  intro dl
  induction dl with
  | nil => intro _; rfl
  | cons p rest ih =>
    intro h
    obtain ⟨v, hv⟩ := h p (List.mem_cons_self _ _)
    simp only [List.filterMap_cons, hv, List.map_cons]
    rw [ih fun q hq => h q (List.mem_cons_of_mem _ hq)]

/-- C6: generate_report returns an error string exactly when the stock data
could not be retrieved or no ratios could be calculated (a falsy ratios
dict); otherwise it returns a StockReport packaging the ticker, the
classification label, all calculated ratios, the per-ratio rating details,
and an explanation for every rated ratio (each of which has a non-None
value). -/
theorem generate_report_spec (fetched : Option StockData) (ticker t now : String) :
    ((∃ e, generate_report fetched ticker t now = Except.error e) ↔
      (fetched = none ∨ calculate_ratios fetched t = none
        ∨ calculate_ratios fetched t = some []))
    ∧ (∀ rep : StockReport, generate_report fetched ticker t now = Except.ok rep →
        rep.ticker = ticker
        ∧ calculate_ratios fetched t = some rep.ratios
        ∧ rep.classification = (classify_stock (some rep.ratios) t).1
        ∧ rep.rating_details = (classify_stock (some rep.ratios) t).2
        ∧ rep.analysis_type = t
        ∧ rep.ratio_explanations.map Prod.fst = rep.rating_details.map Prod.fst) := by
  cases fetched with
  | none =>
    refine ⟨⟨fun _ => Or.inl rfl, fun _ => ⟨_, rfl⟩⟩, ?_⟩
    intro rep h
    exact Except.noConfusion h
  | some sd =>
    cases hc : calculate_ratios (some sd) t with
    | none =>
      have hgen : generate_report (some sd) ticker t now =
          Except.error ("Could not calculate ratios for " ++ ticker) := by
        simp only [generate_report, hc]
      refine ⟨⟨fun _ => Or.inr (Or.inl rfl), fun _ => ⟨_, hgen⟩⟩, ?_⟩
      intro rep h
      rw [hgen] at h
      exact Except.noConfusion h
    | some rs =>
      by_cases hre : rs.isEmpty = true
      · have hrsnil : rs = [] := List.isEmpty_iff.mp hre
        subst hrsnil
        have hgen : generate_report (some sd) ticker t now =
            Except.error ("Could not calculate ratios for " ++ ticker) := by
          simp only [generate_report, hc, List.isEmpty_nil, if_true]
        refine ⟨⟨fun _ => Or.inr (Or.inr rfl), fun _ => ⟨_, hgen⟩⟩, ?_⟩
        intro rep h
        rw [hgen] at h
        exact Except.noConfusion h
      · have hnd : (rs.map Prod.fst).Nodup := by
          cases hi : sd.info with
          | none =>
            simp only [calculate_ratios, hi] at hc
            cases hc
          | some i => exact (calculate_ratios_props sd i t hi rs hc).1
        constructor
        · constructor
          · rintro ⟨e, he⟩
            exfalso
            simp only [generate_report, hc] at he
            rw [if_neg hre] at he
            exact Except.noConfusion he
          · rintro (hf | hf | hf)
            · exact Option.noConfusion hf
            · exact Option.noConfusion hf
            · injection hf with hf
              rw [hf] at hre
              exact absurd rfl hre
        · intro rep h
          simp only [generate_report, hc] at h
          rw [if_neg hre] at h
          injection h with h
          subst h
          have hdet : (classify_stock (some rs) t).2 = ratingDetails (criteriaFor t) rs := by
            rw [classify_stock_eq]
            rfl
          refine ⟨rfl, rfl, rfl, rfl, rfl, ?_⟩
          show ((classify_stock (some rs) t).2.filterMap _).map Prod.fst =
            (classify_stock (some rs) t).2.map Prod.fst
          rw [hdet]
          exact explanations_keys t rs _ (ratingDetails_values_some hnd)

theorem generate_report_spec_witness :
    sampleReport.ticker = "TEST"
    ∧ calculate_ratios (some sampleStock) "value" = some sampleReport.ratios
    ∧ sampleReport.ratio_explanations.map Prod.fst =
        sampleReport.rating_details.map Prod.fst :=
  have h := (generate_report_spec (some sampleStock) "TEST" "value" "ts").2
    sampleReport (by with_unfolding_all rfl)
  ⟨h.1, h.2.1, h.2.2.2.2.2⟩

end StockAnalyzer
